import Mathlib

/-!
Verification of the job-leasing and lifecycle-orchestration core of the
`da3_video_to_glb` worker (Python sources under `app/`).

The relational job store (`jobs`, `job_attempts` tables touched by
`PostgresJobRepositoryAdapter`) is embedded as explicit record lists, and
each repository method becomes a pure state transition.  SQL `NOW()` values
are passed in as explicit timestamps; row ids that the database would
generate are passed in as explicit fresh ids.  Locking (`FOR UPDATE SKIP
LOCKED`) is embedded by a set of row ids currently locked by concurrent
transactions: a locked row is skipped by the selection, never waited on,
and a transaction's own lock lives only for the duration of the call (it is
released by the `COMMIT` that the adapter performs before returning).

The progress reporters and the job execution pipeline
(`DbProgressReporter`, `CompositeProgressReporter`,
`ConvertVideoToGlbUseCase.execute`, `RunSingleJobUseCase.execute`) are
embedded as functions over an explicit environment describing the outcome
of each external capability call, producing a result (normal return or a
raised exception) together with the ordered trace of side-effecting calls.
Wall-clock timestamps (`time.time()`) are modelled as exact rationals.
-/

namespace DA3

/-- Lifecycle status of a row of the `jobs` table. -/
inductive JobStatus where
  | queued
  | running
  | succeeded
  | failed
deriving DecidableEq, Repr

/-- Status of a row of the `job_attempts` table. -/
inductive AttemptStatus where
  | running
  | succeeded
  | failed
deriving DecidableEq, Repr

/-- A row of the `jobs` table: the columns the adapter reads or writes
(`id`, `status`, `priority`, `created_at`, `progress_percent`,
`error_code`, `error_message`, `started_at`, `finished_at`,
`input_object_key`, `output_prefix`, and the two fields the SQL extracts
from `params_json`: `fps` and `modelId`, absent when the JSON key is
absent). -/
structure JobRow where
  id : Nat
  status : JobStatus
  priority : Int
  created_at : Int
  progress_percent : Int
  error_code : Option String
  error_message : Option String
  started_at : Option Int
  finished_at : Option Int
  input_object_key : String
  output_prefix : String
  params_fps : Option ℚ
  params_model_id : Option String
deriving DecidableEq, Repr

/-- A row of the `job_attempts` table. -/
structure AttemptRow where
  id : Nat
  job_id : Nat
  attempt_no : Int
  worker_id : Nat
  status : AttemptStatus
  started_at : Int
  finished_at : Option Int
  exit_code : Option Int
  error_message : Option String
deriving DecidableEq, Repr

/-- The mutable store: the two tables the leasing and attempt-tracking
methods read and write. -/
structure DbState where
  jobs : List JobRow
  attempts : List AttemptRow
deriving DecidableEq, Repr

/-- The `VideoJob` dataclass (`app/domain/job_models.py`) built by
`fetch_next_queued_job` from the selected row. -/
structure VideoJob where
  job_id : Nat
  input_object_key : String
  output_prefix : String
  fps : ℚ
  model_id : String
deriving DecidableEq, Repr

/-- The `JobAttemptInfo` dataclass returned by `start_job_attempt`. -/
structure JobAttemptInfo where
  attempt_id : Nat
  attempt_no : Int
deriving DecidableEq, Repr

/-- `ORDER BY j.priority DESC, j.created_at ASC`: row `a` sorts strictly
before row `b`. -/
def JobPrecedes (a b : JobRow) : Prop :=
  a.priority > b.priority ∨ (a.priority = b.priority ∧ a.created_at < b.created_at)

instance (a b : JobRow) : Decidable (JobPrecedes a b) := by
  unfold JobPrecedes; infer_instance

/-- The rows the locking read considers: `WHERE j.status = 'queued'`, with
the rows locked by concurrent transactions skipped (`SKIP LOCKED`). -/
def eligibleRows (db : DbState) (locked : List Nat) : List JobRow :=
  db.jobs.filter fun j => decide (j.status = .queued) && decide (j.id ∉ locked)

/-- The row `LIMIT 1` keeps under the `ORDER BY`: a row no other eligible
row sorts strictly before (ties resolved in favour of the earlier row of
the list, matching an arbitrary tie order in SQL). -/
def selectBest : List JobRow → Option JobRow
  | [] => none
  | j :: rest =>
    match selectBest rest with
    | none => some j
    | some k => if JobPrecedes k j then some k else some j

/-- Row-to-dataclass conversion performed by the `SELECT` list:
`COALESCE((params_json->>'fps')::double precision, 2.0)` and
`COALESCE(params_json->>'modelId', 'depth-anything/da3nested-giant-large')`. -/
def toVideoJob (j : JobRow) : VideoJob :=
  { job_id := j.id
    input_object_key := j.input_object_key
    output_prefix := j.output_prefix
    fps := j.params_fps.getD 2
    model_id := j.params_model_id.getD "depth-anything/da3nested-giant-large" }

/-- `PostgresJobRepositoryAdapter.fetch_next_queued_job`: the `SELECT ...
FOR UPDATE SKIP LOCKED LIMIT 1` over the queued jobs, given the set of row
ids locked by concurrent in-flight transactions.  The read is non-blocking:
locked rows are skipped, never waited on. -/
def fetch_next_queued_job (db : DbState) (locked : List Nat) : Option VideoJob :=
  (selectBest (eligibleRows db locked)).map toVideoJob

/-- The same call seen as a transaction on the store: the function opens a
transaction, runs the locking read and commits before returning, so the
post-commit store is unchanged (the statement modifies no row) and the
`FOR UPDATE` lock is already released when the call returns. -/
def fetch_next_queued_job_txn (db : DbState) (locked : List Nat) :
    Option VideoJob × DbState :=
  (fetch_next_queued_job db locked, db)

/-- Two overlapping leasing calls against the same store: caller A's
`SELECT` runs first and its `FOR UPDATE` lock is still held when caller B's
`SELECT` runs (that is what makes the two calls concurrent), so B's read
skips the row A claimed. -/
def leaseOverlap (db : DbState) : Option VideoJob × Option VideoJob :=
  let a := fetch_next_queued_job db []
  let lockedByA := (a.map fun v => v.job_id).toList
  (a, fetch_next_queued_job db lockedByA)

/-- The attempt numbers currently stored for one job, in table order. -/
def attemptNosFor (db : DbState) (job_id : Nat) : List Int :=
  (db.attempts.filter fun a => decide (a.job_id = job_id)).map fun a => a.attempt_no

/-- `SELECT MAX(attempt_no) FROM job_attempts WHERE job_id = ...`: the SQL
`MAX`, `none` on an empty table slice. -/
def maxAttemptNo (nos : List Int) : Option Int :=
  nos.foldl (fun acc n => match acc with | none => some n | some m => some (max m n)) none

/-- `SELECT COALESCE(MAX(attempt_no), 0) + 1` for the given job. -/
def nextAttemptNo (db : DbState) (job_id : Nat) : Int :=
  (maxAttemptNo (attemptNosFor db job_id)).getD 0 + 1

/-- The `UPDATE jobs SET status = 'running', progress_percent = 0,
error_code = NULL, error_message = NULL, started_at = COALESCE(started_at,
NOW()), finished_at = NULL` applied to the matching row. -/
def updateJobOnStart (now : Int) (j : JobRow) : JobRow :=
  { j with
    status := .running
    progress_percent := 0
    error_code := none
    error_message := none
    started_at := some (j.started_at.getD now)
    finished_at := none }

/-- `PostgresJobRepositoryAdapter.start_job_attempt`: computes the next
attempt number, inserts a `running` attempt row and moves the job row to
`running` with progress reset and errors cleared.  All three statements run
in one transaction (a single `conn.commit()` at the end), so the embedding
is a single step: no state with the attempt row inserted but the job not
yet updated is reachable.  `new_attempt_id` is the id the database assigns
to the inserted row and `now` is the transaction's `NOW()`. -/
def start_job_attempt (db : DbState) (job_id worker_id new_attempt_id : Nat)
    (now : Int) : DbState × JobAttemptInfo :=
  let n := nextAttemptNo db job_id
  let row : AttemptRow :=
    { id := new_attempt_id
      job_id := job_id
      attempt_no := n
      worker_id := worker_id
      status := .running
      started_at := now
      finished_at := none
      exit_code := none
      error_message := none }
  ( { jobs := db.jobs.map fun j => if j.id = job_id then updateJobOnStart now j else j
      attempts := db.attempts ++ [row] },
    { attempt_id := new_attempt_id, attempt_no := n } )

/-- `error_message[:4000]`: Python slicing by characters. -/
def truncateMessage (s : String) : String := s.take 4000

/-- `PostgresJobRepositoryAdapter.mark_job_failed`: when `attempt_id` is
not `None` the matching attempt row is set to `failed` with the given exit
code and the truncated message; the job row is always set to `failed` with
the given error code and the truncated message.  Both updates run in one
transaction. -/
def mark_job_failed (db : DbState) (job_id : Nat) (attempt_id : Option Nat)
    (error_code : Option String) (error_message : String) (exit_code : Option Int)
    (now : Int) : DbState :=
  let msg := truncateMessage error_message
  let attempts :=
    match attempt_id with
    | some aid =>
        db.attempts.map fun a =>
          if a.id = aid then
            { a with
              status := .failed
              finished_at := some now
              exit_code := exit_code
              error_message := some msg }
          else a
    | none => db.attempts
  { jobs :=
      db.jobs.map fun j =>
        if j.id = job_id then
          { j with
            status := .failed
            error_code := error_code
            error_message := some msg
            finished_at := some now }
        else j
    attempts := attempts }

/-- `PostgresJobRepositoryAdapter.update_progress`: the caller-supplied
percent is clamped to `[0, 100]` by the two `if` statements of the adapter
before the `UPDATE jobs SET progress_percent = ...`. -/
def update_progress (db : DbState) (job_id : Nat) (progress_percent : Int) : DbState :=
  let s1 := if progress_percent < 0 then 0 else progress_percent
  let safe_percent := if s1 > 100 then 100 else s1
  { db with
    jobs :=
      db.jobs.map fun j =>
        if j.id = job_id then { j with progress_percent := safe_percent } else j }

/-- One start/fail cycle of a job: `start_job_attempt` followed by
`mark_job_failed` on the attempt it returned — the shape produced by the
job pipeline when every attempt of a job fails. -/
def startFailCycle (db : DbState) (job_id worker_id new_attempt_id : Nat)
    (now : Int) : DbState :=
  let p := start_job_attempt db job_id worker_id new_attempt_id now
  mark_job_failed p.1 job_id (some p.2.attempt_id) (some "worker_runtime_error")
    "boom" (some 1) now

/-- `k` start/fail cycles in a row (fresh attempt ids `fresh, fresh+1, ...`). -/
def iterStartFailCycles (db : DbState) (job_id worker_id : Nat) (fresh : Nat)
    (now : Int) : Nat → DbState
  | 0 => db
  | k + 1 => startFailCycle (iterStartFailCycles db job_id worker_id fresh now k)
      job_id worker_id (fresh + k) now

/-- The attempt-number sequence `1, 2, ..., k`. -/
def seqNos (k : Nat) : List Int := (List.range k).map fun i => (i : Int) + 1

/-- The mutable state of a `DbProgressReporter`: its configured minimum
interval and `self._last_update_at` (initially `0.0`).  `time.time()`
values are modelled as exact rationals. -/
structure DbReporterState where
  min_interval_sec : ℚ
  last_update_at : ℚ
deriving DecidableEq, Repr

/-- A freshly constructed `DbProgressReporter` (default interval 2.0s). -/
def initDbReporter (min_interval_sec : ℚ := 2) : DbReporterState :=
  { min_interval_sec := min_interval_sec, last_update_at := 0 }

/-- `total if total > 0 else 1` computed by `report_progress`. -/
def safeTotal (total : Int) : Int := if total > 0 then total else 1

/-- `DbProgressReporter.report_progress` at wall-clock time `now`: returns
whether the update is persisted (the call to `update_progress` happens) and
the reporter state after the call.  The persisted percent itself is
computed by Python double arithmetic and is outside this model; the
throttling decision compares exact values. -/
def report_progress_step (st : DbReporterState) (now : ℚ) (current total : Int) :
    Bool × DbReporterState :=
  if now - st.last_update_at < st.min_interval_sec ∧ current < safeTotal total then
    (false, st)
  else
    (true, { st with last_update_at := now })

/-- A sequence of `report_progress` calls, each `(now, current, total)`:
the number of persisted updates. -/
def countPersisted (st : DbReporterState) : List (ℚ × Int × Int) → Nat
  | [] => 0
  | (now, c, t) :: rest =>
    let p := report_progress_step st now c t
    (if p.1 then 1 else 0) + countPersisted p.2 rest

/-- `CompositeProgressReporter.report_phase` and `.report_progress` both
run the same loop `for reporter in self._reporters: reporter.<method>(...)`
with no exception handling.  A sink's behaviour on the call is `none`
(returns normally) or `some e` (raises `e`).  The loop returns the number
of sinks actually invoked and the exception that propagated out of the
composite call, if any. -/
def fanoutCalls : List (Option String) → Nat × Option String
  | [] => (0, none)
  | b :: rest =>
    match b with
    | some e => (1, some e)
    | none =>
      let r := fanoutCalls rest
      (r.1 + 1, r.2)

/-- Exceptions the pipeline can raise: `FileNotFoundError` and
`ValueError` from `_validate_request`, the two explicit `RuntimeError`
raises, and an exception propagating out of a named external call. -/
inductive Exn where
  | fileNotFound
  | valueError
  | runtimeError
  | stepFailure (step : String)
deriving DecidableEq, Repr

/-- The side-effecting calls the pipeline makes, in program order:
filesystem and capability invocations (recorded also when the invocation
itself raises) and job-repository writes (recorded when they take effect). -/
inductive Ev where
  | ensureDir
  | startAttempt (attempt_id : Nat)
  | reportPhase (phase : String)
  | downloadFile
  | extractFrames
  | listFrames
  | inference
  | removeDir
  | uploadFile
  | addArtifact
  | markSucceeded
  | markFailed (attempt_id : Option Nat) (error_code : String)
deriving DecidableEq, Repr

/-- Outcomes of the external calls `ConvertVideoToGlbUseCase.execute`
makes, and the facts its validation checks: whether
`request.input_video_path.exists()`, the requested `fps`, the
`keep_frames` flag, whether each capability call returns normally, the
number of frame images listed, and whether the inference result carries a
GLB path. -/
structure ConvertEnv where
  input_exists : Bool
  fps : ℚ
  keep_frames : Bool
  ensure_output_dir_ok : Bool
  ensure_frames_dir_ok : Bool
  extract_ok : Bool
  list_frames_ok : Bool
  frame_count : Nat
  infer_ok : Bool
  infer_glb_found : Bool
  remove_dir_ok : Bool
deriving DecidableEq, Repr

/-- `ConvertVideoToGlbUseCase.execute`: validation first
(`_validate_request`: missing input raises `FileNotFoundError`, `fps <= 0`
raises `ValueError`, both before any other statement), then prepare /
extract / list / infer, then the non-fatal cleanup of the frames directory
when `keep_frames` is false, then the `done` phase.  Returns whether the
inference produced a GLB path, with the trace of calls made. -/
def convert_execute (env : ConvertEnv) : Except Exn Bool × List Ev :=
  if env.input_exists = false then (.error .fileNotFound, [])
  else if env.fps ≤ 0 then (.error .valueError, [])
  else
    let tr0 := [Ev.reportPhase "prepare", Ev.ensureDir]
    if env.ensure_output_dir_ok = false then (.error (.stepFailure "ensure_dir"), tr0)
    else
      let tr1 := tr0 ++ [Ev.ensureDir]
      if env.ensure_frames_dir_ok = false then (.error (.stepFailure "ensure_dir"), tr1)
      else
        let tr2 := tr1 ++ [Ev.extractFrames]
        if env.extract_ok = false then (.error (.stepFailure "extract_frames"), tr2)
        else
          let tr3 := tr2 ++ [Ev.listFrames]
          if env.list_frames_ok = false then
            (.error (.stepFailure "list_frame_images"), tr3)
          else if env.frame_count = 0 then (.error .runtimeError, tr3)
          else
            let tr4 := tr3 ++ [Ev.reportPhase "infer", Ev.inference]
            if env.infer_ok = false then (.error (.stepFailure "inference"), tr4)
            else
              let cleanup :=
                if env.keep_frames = false then
                  [Ev.reportPhase "cleanup", Ev.removeDir] ++
                    (if env.remove_dir_ok = false then [Ev.reportPhase "cleanup_warn"]
                     else [])
                else []
              (.ok env.infer_glb_found, tr4 ++ cleanup ++ [Ev.reportPhase "done"])

/-- Outcomes of the calls `RunSingleJobUseCase.execute` makes around the
conversion: the two work-directory `ensure_dir` calls (made before the
`try`), `start_job_attempt` (with the attempt id the database would
assign), `download_file`, the conversion environment, `upload_file`,
`add_artifact` and `mark_job_succeeded`. -/
structure RunEnv where
  ensure_work_input_ok : Bool
  ensure_work_output_ok : Bool
  start_attempt_ok : Bool
  attempt_id : Nat
  download_ok : Bool
  convert : ConvertEnv
  upload_ok : Bool
  add_artifact_ok : Bool
  mark_succeeded_ok : Bool
deriving DecidableEq, Repr

/-- The value of the local `attempt_info` at the `except` clause: the
attempt id if `start_job_attempt` returned, `None` otherwise. -/
def attemptCtx (env : RunEnv) : Option Nat :=
  if env.start_attempt_ok then some env.attempt_id else none

/-- The body of the `try` block of `RunSingleJobUseCase.execute`: start
the attempt, download the input, convert, check the GLB path, upload,
record the artifact and mark the job succeeded; the first raising step
aborts the rest.  (A failed `start_job_attempt` leaves no attempt row, so
it contributes no event.) -/
def run_try_body (env : RunEnv) : Except Exn Unit × List Ev :=
  if env.start_attempt_ok = false then (.error (.stepFailure "start_job_attempt"), [])
  else
    let tr0 := [Ev.startAttempt env.attempt_id, Ev.reportPhase "download",
      Ev.downloadFile]
    if env.download_ok = false then (.error (.stepFailure "download_file"), tr0)
    else
      let c := convert_execute env.convert
      let tr1 := tr0 ++ c.2
      match c.1 with
      | .error e => (.error e, tr1)
      | .ok glb_found =>
        if glb_found = false then (.error .runtimeError, tr1)
        else
          let tr2 := tr1 ++ [Ev.reportPhase "upload", Ev.uploadFile]
          if env.upload_ok = false then (.error (.stepFailure "upload_file"), tr2)
          else
            let tr3 := tr2 ++ [Ev.addArtifact]
            if env.add_artifact_ok = false then
              (.error (.stepFailure "add_artifact"), tr3)
            else
              let tr4 := tr3 ++ [Ev.markSucceeded]
              if env.mark_succeeded_ok = false then
                (.error (.stepFailure "mark_job_succeeded"), tr4)
              else (.ok (), tr4)

/-- `RunSingleJobUseCase.execute`: the two work-directory `ensure_dir`
calls run before the `try` block, so an exception they raise propagates
without any failure record; an exception from the `try` body is caught
once, `mark_job_failed` is called with error code `worker_runtime_error`
and the attempt id if an attempt had been started, and the exception is
re-raised afterwards. -/
def run_execute (env : RunEnv) : Except Exn Unit × List Ev :=
  if env.ensure_work_input_ok = false then
    (.error (.stepFailure "ensure_dir"), [Ev.ensureDir])
  else if env.ensure_work_output_ok = false then
    (.error (.stepFailure "ensure_dir"), [Ev.ensureDir, Ev.ensureDir])
  else
    let pre := [Ev.ensureDir, Ev.ensureDir]
    match run_try_body env with
    | (.ok _, tr) => (.ok (), pre ++ tr)
    | (.error e, tr) =>
      (.error e,
        pre ++ tr ++ [Ev.markFailed (attemptCtx env) "worker_runtime_error"])

/-- The number of `mark_job_failed` calls in a trace. -/
def countMarkFailed (tr : List Ev) : Nat :=
  (tr.filter fun e => match e with | .markFailed _ _ => true | _ => false).length

/-! ### Helper lemmas about the `ORDER BY ... LIMIT 1` selection -/

lemma jobPrecedes_irrefl (a : JobRow) : ¬ JobPrecedes a a := by
  simp only [JobPrecedes]; omega

lemma jobPrecedes_asymm {a b : JobRow} (h : JobPrecedes a b) : ¬ JobPrecedes b a := by
  simp only [JobPrecedes] at *; omega

lemma jobPrecedes_resolve {x j k : JobRow} (hkj : ¬ JobPrecedes k j)
    (hxj : JobPrecedes x j) : JobPrecedes x k := by
  simp only [JobPrecedes] at *; omega

lemma selectBest_eq_none {l : List JobRow} : selectBest l = none ↔ l = [] := by
  cases l with
  | nil => simp [selectBest]
  | cons a rest =>
    simp only [selectBest]
    constructor
    · intro h
      cases hr : selectBest rest with
      | none => rw [hr] at h; exact absurd h (by simp)
      | some k =>
        rw [hr] at h
        simp only at h
        split at h <;> simp at h
    · intro h
      simp at h

lemma selectBest_mem : ∀ {l : List JobRow} {j : JobRow}, selectBest l = some j → j ∈ l := by
  intro l
  induction l with
  | nil => intro j h; simp [selectBest] at h
  | cons a rest ih =>
    intro j h
    simp only [selectBest] at h
    cases hr : selectBest rest with
    | none =>
      rw [hr] at h
      simp only [Option.some.injEq] at h
      exact h ▸ List.mem_cons_self a rest
    | some k =>
      rw [hr] at h
      simp only at h
      by_cases hp : JobPrecedes k a
      · rw [if_pos hp] at h
        simp only [Option.some.injEq] at h
        exact h ▸ List.mem_cons_of_mem a (ih hr)
      · rw [if_neg hp] at h
        simp only [Option.some.injEq] at h
        exact h ▸ List.mem_cons_self a rest

lemma selectBest_not_beaten : ∀ {l : List JobRow} {j : JobRow},
    selectBest l = some j → ∀ x ∈ l, ¬ JobPrecedes x j := by
  intro l
  induction l with
  | nil => intro j h; simp [selectBest] at h
  | cons a rest ih =>
    intro j h x hx
    simp only [selectBest] at h
    cases hr : selectBest rest with
    | none =>
      rw [hr] at h
      simp only [Option.some.injEq] at h
      subst h
      rcases List.mem_cons.mp hx with rfl | hx
      · exact jobPrecedes_irrefl x
      · exact absurd (selectBest_eq_none.mp hr ▸ hx) (List.not_mem_nil x)
    | some k =>
      rw [hr] at h
      simp only at h
      by_cases hp : JobPrecedes k a
      · rw [if_pos hp] at h
        simp only [Option.some.injEq] at h
        subst h
        rcases List.mem_cons.mp hx with rfl | hx
        · exact jobPrecedes_asymm hp
        · exact ih hr x hx
      · rw [if_neg hp] at h
        simp only [Option.some.injEq] at h
        subst h
        rcases List.mem_cons.mp hx with rfl | hx
        · exact jobPrecedes_irrefl x
        · intro hxa
          exact ih hr x hx (jobPrecedes_resolve hp hxa)

lemma mem_eligibleRows {db : DbState} {locked : List Nat} {j : JobRow} :
    j ∈ eligibleRows db locked ↔
      j ∈ db.jobs ∧ j.status = JobStatus.queued ∧ j.id ∉ locked := by
  simp [eligibleRows, List.mem_filter, and_assoc]

lemma fetch_some_spec {db : DbState} {locked : List Nat} {v : VideoJob}
    (h : fetch_next_queued_job db locked = some v) :
    ∃ j ∈ db.jobs, j.status = JobStatus.queued ∧ j.id ∉ locked ∧ v = toVideoJob j ∧
      ∀ x ∈ db.jobs, x.status = JobStatus.queued → x.id ∉ locked → ¬ JobPrecedes x j := by
  simp only [fetch_next_queued_job, Option.map_eq_some'] at h
  obtain ⟨j, hj, rfl⟩ := h
  have hmem := mem_eligibleRows.mp (selectBest_mem hj)
  refine ⟨j, hmem.1, hmem.2.1, hmem.2.2, rfl, ?_⟩
  intro x hx hxs hxl
  exact selectBest_not_beaten hj x (mem_eligibleRows.mpr ⟨hx, hxs, hxl⟩)

lemma fetch_none_spec {db : DbState} {locked : List Nat}
    (h : fetch_next_queued_job db locked = none) :
    ∀ j ∈ db.jobs, j.status = JobStatus.queued → j.id ∈ locked := by
  intro j hj hjs
  simp only [fetch_next_queued_job, Option.map_eq_none'] at h
  have hel := selectBest_eq_none.mp h
  by_contra hl
  exact absurd (hel ▸ mem_eligibleRows.mpr ⟨hj, hjs, hl⟩) (List.not_mem_nil j)

lemma toVideoJob_id (j : JobRow) : (toVideoJob j).job_id = j.id := rfl

/-! ### The claims about the leasing read (C1, C2, C10) -/

/-- C1.  For any two concurrent calls to `fetch_next_queued_job` against the
same set of queued jobs, no job id is returned to both callers: when caller
B's locking read runs while caller A's `FOR UPDATE` lock on its selected row
is still held, B's `SKIP LOCKED` read skips that row, so B receives a
different job or none.  Moreover the read never blocks on a concurrently
claimed row: it never returns a row in the concurrent lock set (it skips
such rows), and it returns `None` (rather than waiting) exactly when every
queued row is claimed by a concurrent caller. -/
theorem C1_concurrent_lease_exclusive_nonblocking (db : DbState) :
    (∀ ja jb, (leaseOverlap db).1 = some ja → (leaseOverlap db).2 = some jb →
      ja.job_id ≠ jb.job_id)
    ∧ (∀ locked v, fetch_next_queued_job db locked = some v → v.job_id ∉ locked)
    ∧ (∀ locked, fetch_next_queued_job db locked = none →
        ∀ j ∈ db.jobs, j.status = JobStatus.queued → j.id ∈ locked) := by
  have hskip : ∀ locked v, fetch_next_queued_job db locked = some v →
      v.job_id ∉ locked := by
    intro locked v h
    obtain ⟨j, _, _, hjl, rfl, _⟩ := fetch_some_spec h
    simpa [toVideoJob_id] using hjl
  refine ⟨?_, hskip, fun locked h => fetch_none_spec h⟩
  intro ja jb ha hb
  simp only [leaseOverlap] at ha hb
  rw [ha] at hb
  have := hskip [ja.job_id] jb hb
  simp only [List.mem_singleton] at this
  exact fun hEq => this hEq.symm

/-- A queued example row (used by the concrete witnesses below). -/
def exampleQueuedRow (i : Nat) (pr cr : Int) : JobRow :=
  { id := i, status := .queued, priority := pr, created_at := cr,
    progress_percent := 0, error_code := none, error_message := none,
    started_at := none, finished_at := none, input_object_key := "in",
    output_prefix := "o", params_fps := none, params_model_id := none }

/-- A store holding the spec's scenario: one queued job of priority 1 and
one queued job of priority 5, no attempts. -/
def exampleTwoQueuedDb : DbState :=
  { jobs := [exampleQueuedRow 1 1 0, exampleQueuedRow 2 5 10], attempts := [] }

/-- C1 witness: on a store with two queued jobs (priority 5 and priority 1),
two overlapping leasing calls return the two distinct jobs, and in
particular not the same job id. -/
theorem C1_concurrent_lease_witness :
    leaseOverlap exampleTwoQueuedDb =
      (some (toVideoJob (exampleQueuedRow 2 5 10)),
       some (toVideoJob (exampleQueuedRow 1 1 0)))
    ∧ (toVideoJob (exampleQueuedRow 2 5 10)).job_id ≠
      (toVideoJob (exampleQueuedRow 1 1 0)).job_id := by
  constructor
  · decide
  · exact (C1_concurrent_lease_exclusive_nonblocking exampleTwoQueuedDb).1
      (toVideoJob (exampleQueuedRow 2 5 10)) (toVideoJob (exampleQueuedRow 1 1 0))
      (by decide) (by decide)

/-- C2.  On every store (no concurrent contention, so the lock set is
empty) `fetch_next_queued_job` returns `None` exactly when no job has
status `queued`; and when it returns a job, that job comes from a `queued`
row that no other `queued` row beats under the order "priority descending,
then creation time ascending". -/
theorem C2_fetch_selection_order (db : DbState) :
    (fetch_next_queued_job db [] = none ↔
      ∀ j ∈ db.jobs, j.status ≠ JobStatus.queued)
    ∧ (∀ v, fetch_next_queued_job db [] = some v →
        ∃ j ∈ db.jobs, j.status = JobStatus.queued ∧ v = toVideoJob j ∧
          ∀ x ∈ db.jobs, x.status = JobStatus.queued → ¬ JobPrecedes x j) := by
  constructor
  · constructor
    · intro h j hj
      intro hjs
      have := fetch_none_spec h j hj hjs
      simp at this
    · intro h
      cases hv : fetch_next_queued_job db [] with
      | none => rfl
      | some v =>
        obtain ⟨j, hj, hjs, _, _, _⟩ := fetch_some_spec hv
        exact absurd hjs (h j hj)
  · intro v hv
    obtain ⟨j, hj, hjs, _, hveq, hbest⟩ := fetch_some_spec hv
    exact ⟨j, hj, hjs, hveq, fun x hx hxs => hbest x hx hxs (by simp)⟩

/-- C2 witness: with a queued priority-5 job and a queued priority-1 job
both eligible, the lease returns the priority-5 job, and that job is a
queued row no other queued row beats. -/
theorem C2_fetch_selection_witness :
    fetch_next_queued_job exampleTwoQueuedDb [] =
      some (toVideoJob (exampleQueuedRow 2 5 10))
    ∧ ∃ j ∈ exampleTwoQueuedDb.jobs, j.status = JobStatus.queued ∧
        toVideoJob (exampleQueuedRow 2 5 10) = toVideoJob j ∧
        ∀ x ∈ exampleTwoQueuedDb.jobs, x.status = JobStatus.queued →
          ¬ JobPrecedes x j :=
  ⟨by decide,
    (C2_fetch_selection_order exampleTwoQueuedDb).2
      (toVideoJob (exampleQueuedRow 2 5 10)) (by decide)⟩

/-- C10.  The leasing read modifies nothing: the store after the call's
commit is the store it started from, the returned job's row still has
status `queued` when the call returns, and — because the `FOR UPDATE` lock
is released by the commit that happens inside the function — an identical
later (non-overlapping) call returns the very same job: the exclusivity of
a lease holds only while two leasing calls actually overlap. -/
theorem C10_fetch_pure_lock_scope (db : DbState) (locked : List Nat) :
    (fetch_next_queued_job_txn db locked).2 = db
    ∧ (∀ v, (fetch_next_queued_job_txn db locked).1 = some v →
        ∃ j ∈ (fetch_next_queued_job_txn db locked).2.jobs,
          j.id = v.job_id ∧ j.status = JobStatus.queued)
    ∧ (fetch_next_queued_job_txn ((fetch_next_queued_job_txn db locked).2)
        locked).1 = (fetch_next_queued_job_txn db locked).1 := by
  refine ⟨rfl, ?_, rfl⟩
  intro v hv
  obtain ⟨j, hj, hjs, _, hveq, _⟩ := fetch_some_spec hv
  exact ⟨j, hj, by rw [hveq, toVideoJob_id], hjs⟩

/-- C10 witness: on the two-queued-job store, the call leaves the store
unchanged, the returned priority-5 job is still queued, and a second
sequential call returns the same job again. -/
theorem C10_fetch_pure_lock_scope_witness :
    (fetch_next_queued_job_txn exampleTwoQueuedDb []).2 = exampleTwoQueuedDb
    ∧ (∃ j ∈ (fetch_next_queued_job_txn exampleTwoQueuedDb []).2.jobs,
        j.id = (toVideoJob (exampleQueuedRow 2 5 10)).job_id ∧
        j.status = JobStatus.queued)
    ∧ (fetch_next_queued_job_txn
        ((fetch_next_queued_job_txn exampleTwoQueuedDb []).2) []).1 =
      (fetch_next_queued_job_txn exampleTwoQueuedDb []).1 :=
  ⟨(C10_fetch_pure_lock_scope exampleTwoQueuedDb []).1,
    (C10_fetch_pure_lock_scope exampleTwoQueuedDb []).2.1
      (toVideoJob (exampleQueuedRow 2 5 10)) (by decide),
    (C10_fetch_pure_lock_scope exampleTwoQueuedDb []).2.2⟩

/-! ### Helper lemmas about attempt numbering (C3) -/

lemma maxAttemptNo_foldl_le (rest : List Int) : ∀ (a m : Int),
    rest.foldl (fun acc n => match acc with
      | none => some n | some m => some (max m n)) (some a) = some m →
    a ≤ m ∧ ∀ x ∈ rest, x ≤ m := by
  induction rest with
  | nil =>
    intro a m h
    simp only [List.foldl_nil, Option.some.injEq] at h
    exact ⟨le_of_eq h, by simp⟩
  | cons b r ih =>
    intro a m h
    simp only [List.foldl_cons] at h
    obtain ⟨hab, hr⟩ := ih (max a b) m h
    refine ⟨le_trans (le_max_left a b) hab, ?_⟩
    intro x hx
    rcases List.mem_cons.mp hx with rfl | hx
    · exact le_trans (le_max_right a x) hab
    · exact hr x hx

lemma maxAttemptNo_foldl_ne_none : ∀ (r : List Int) (a : Int),
    r.foldl (fun acc n => match acc with
      | none => some n | some m => some (max m n)) (some a) ≠ none := by
  intro r
  induction r with
  | nil => intro a h; simp at h
  | cons c rr ih =>
    intro a h
    simp only [List.foldl_cons] at h
    exact ih (max a c) h

lemma maxAttemptNo_ge_mem {nos : List Int} {x : Int} (hx : x ∈ nos) :
    ∃ m, maxAttemptNo nos = some m ∧ x ≤ m := by
  cases nos with
  | nil => simp at hx
  | cons b r =>
    have hfold : maxAttemptNo (b :: r) =
        r.foldl (fun acc n => match acc with
          | none => some n | some m => some (max m n)) (some b) := rfl
    cases hm : maxAttemptNo (b :: r) with
    | none => exact absurd (hfold ▸ hm) (maxAttemptNo_foldl_ne_none r b)
    | some m =>
      rw [hfold] at hm
      obtain ⟨hb, hr⟩ := maxAttemptNo_foldl_le r b m hm
      rcases List.mem_cons.mp hx with rfl | hx
      · exact ⟨m, rfl, hb⟩
      · exact ⟨m, rfl, hr x hx⟩

lemma mem_attemptNosFor {db : DbState} {job_id : Nat} {a : AttemptRow}
    (ha : a ∈ db.attempts) (hid : a.job_id = job_id) :
    a.attempt_no ∈ attemptNosFor db job_id := by
  simp only [attemptNosFor, List.mem_map]
  exact ⟨a, List.mem_filter.mpr ⟨ha, by simp [hid]⟩, rfl⟩

lemma nextAttemptNo_gt {db : DbState} {job_id : Nat} {a : AttemptRow}
    (ha : a ∈ db.attempts) (hid : a.job_id = job_id) :
    a.attempt_no < nextAttemptNo db job_id := by
  obtain ⟨m, hm, hle⟩ := maxAttemptNo_ge_mem (mem_attemptNosFor ha hid)
  simp only [nextAttemptNo, hm, Option.getD_some]
  omega

lemma attemptNosFor_start (db : DbState) (job_id worker_id new_attempt_id : Nat)
    (now : Int) :
    attemptNosFor (start_job_attempt db job_id worker_id new_attempt_id now).1
        job_id = attemptNosFor db job_id ++ [nextAttemptNo db job_id] := by
  simp [start_job_attempt, attemptNosFor, List.filter_append]

lemma filter_map_attempt_invariant (g : AttemptRow → AttemptRow)
    (hg : ∀ a, (g a).job_id = a.job_id ∧ (g a).attempt_no = a.attempt_no)
    (job_id : Nat) :
    ∀ l : List AttemptRow,
      ((l.map g).filter fun a => decide (a.job_id = job_id)).map
          (fun a => a.attempt_no) =
        (l.filter fun a => decide (a.job_id = job_id)).map fun a => a.attempt_no := by
  intro l
  induction l with
  | nil => rfl
  | cons a r ih =>
    simp only [List.map_cons, List.filter_cons, (hg a).1]
    by_cases hq : a.job_id = job_id
    · simp [hq, (hg a).2, ih]
    · simp [hq, ih]

lemma attemptNosFor_markFailed (db : DbState) (job_id : Nat)
    (attempt_id : Option Nat) (error_code : Option String) (error_message : String)
    (exit_code : Option Int) (now : Int) (jid : Nat) :
    attemptNosFor (mark_job_failed db job_id attempt_id error_code error_message
        exit_code now) jid = attemptNosFor db jid := by
  cases attempt_id with
  | none => rfl
  | some aid =>
    simp only [mark_job_failed, attemptNosFor]
    exact filter_map_attempt_invariant _
      (fun a => by by_cases h : a.id = aid <;> simp [h]) jid _

lemma maxAttemptNo_append_singleton (nos : List Int) (x : Int) :
    maxAttemptNo (nos ++ [x]) =
      some ((maxAttemptNo nos).elim x fun m => max m x) := by
  simp only [maxAttemptNo, List.foldl_append, List.foldl_cons, List.foldl_nil]
  cases nos.foldl (fun acc n => match acc with
      | none => some n | some m => some (max m n)) none <;> rfl

lemma maxAttemptNo_seqNos : ∀ k : Nat,
    maxAttemptNo (seqNos k) = if k = 0 then none else some (k : Int) := by
  intro k
  induction k with
  | zero => rfl
  | succ n ih =>
    have hs : seqNos (n + 1) = seqNos n ++ [(n : Int) + 1] := by
      simp [seqNos, List.range_succ]
    rw [hs, maxAttemptNo_append_singleton, ih]
    cases n with
    | zero => simp
    | succ m =>
      rw [if_neg (Nat.succ_ne_zero m), if_neg (Nat.succ_ne_zero (m + 1))]
      simp only [Option.elim_some, Option.some.injEq]
      push_cast
      omega

lemma nextAttemptNo_seqNos (db : DbState) (job_id : Nat) (k : Nat)
    (h : attemptNosFor db job_id = seqNos k) :
    nextAttemptNo db job_id = (k : Int) + 1 := by
  simp only [nextAttemptNo, h, maxAttemptNo_seqNos]
  cases k with
  | zero => simp
  | succ n => simp

/-- C3.  `start_job_attempt` inserts, in the same transaction as the job
update, a `running` attempt row whose number is strictly greater than every
existing attempt number of that job (so never a repeat), equal to 1 on a
job with no attempts, and — over repeated start/fail cycles — extending the
attempt-number sequence `1, 2, ..., k` to `1, 2, ..., k+1` with no gap; the
job row comes out of the same atomic step with status `running`, progress
0 and the prior error cleared. -/
theorem C3_start_attempt_numbering_atomic (db : DbState)
    (job_id worker_id new_attempt_id : Nat) (now : Int) :
    (∃ a ∈ (start_job_attempt db job_id worker_id new_attempt_id now).1.attempts,
      a.id = new_attempt_id ∧ a.job_id = job_id ∧ a.worker_id = worker_id ∧
      a.status = AttemptStatus.running ∧
      a.attempt_no =
        (start_job_attempt db job_id worker_id new_attempt_id now).2.attempt_no)
    ∧ (∀ j ∈ (start_job_attempt db job_id worker_id new_attempt_id now).1.jobs,
        j.id = job_id → j.status = JobStatus.running ∧ j.progress_percent = 0 ∧
          j.error_code = none ∧ j.error_message = none)
    ∧ (∀ a ∈ db.attempts, a.job_id = job_id →
        a.attempt_no <
          (start_job_attempt db job_id worker_id new_attempt_id now).2.attempt_no)
    ∧ (attemptNosFor db job_id = [] →
        (start_job_attempt db job_id worker_id new_attempt_id now).2.attempt_no = 1)
    ∧ (∀ k : Nat, attemptNosFor db job_id = seqNos k →
        attemptNosFor (startFailCycle db job_id worker_id new_attempt_id now)
          job_id = seqNos (k + 1)) := by
  refine ⟨?_, ?_, ?_, ?_, ?_⟩
  · refine ⟨_, List.mem_append_right _ (List.mem_singleton_self _), rfl, rfl, rfl,
      rfl, rfl⟩
  · intro j hj hid
    simp only [start_job_attempt, List.mem_map] at hj
    obtain ⟨j0, _, rfl⟩ := hj
    by_cases h0 : j0.id = job_id
    · simp [h0, updateJobOnStart]
    · rw [if_neg h0] at hid ⊢
      exact absurd hid h0
  · intro a ha hid
    exact nextAttemptNo_gt ha hid
  · intro h
    show nextAttemptNo db job_id = 1
    simp [nextAttemptNo, h, maxAttemptNo]
  · intro k hk
    rw [startFailCycle, attemptNosFor_markFailed, attemptNosFor_start, hk,
      nextAttemptNo_seqNos db job_id k hk]
    simp [seqNos, List.range_succ]

/-- C3 witness: on a job with no attempts, one start/fail cycle yields the
attempt-number sequence `[1]`. -/
theorem C3_start_attempt_numbering_witness :
    attemptNosFor (startFailCycle exampleTwoQueuedDb 1 9 101 50) 1 = seqNos 1 :=
  (C3_start_attempt_numbering_atomic exampleTwoQueuedDb 1 9 101 50).2.2.2.2 0
    (by decide)

/-! ### The failure-recording write (C4) -/

lemma truncateMessage_length_le (s : String) : (truncateMessage s).length ≤ 4000 := by
  rw [truncateMessage, String.take_eq]
  show (s.data.take 4000).length ≤ 4000
  rw [List.length_take]
  exact Nat.min_le_left _ _

lemma truncateMessage_short (s : String) (h : s.length ≤ 4000) :
    truncateMessage s = s := by
  rw [truncateMessage, String.take_eq]
  show (⟨s.data.take 4000⟩ : String) = s
  rw [List.take_of_length_le h]

/-- C4.  `mark_job_failed` sets the job row to `failed` with the given
error code and the message truncated to at most 4000 characters (a message
already within the bound is stored verbatim); when an attempt id is given,
the matching attempt row is set to `failed` with the same truncated message
and the given exit code, other attempt rows being left untouched; when the
attempt id is `None`, the attempts table is untouched and the job update is
still applied (as the first conjunct states for every value of
`attempt_id`). -/
theorem C4_mark_failed_semantics (db : DbState) (job_id : Nat)
    (attempt_id : Option Nat) (error_code : Option String) (error_message : String)
    (exit_code : Option Int) (now : Int) :
    (∀ j ∈ (mark_job_failed db job_id attempt_id error_code error_message
        exit_code now).jobs,
      j.id = job_id → j.status = JobStatus.failed ∧ j.error_code = error_code ∧
        j.error_message = some (truncateMessage error_message))
    ∧ (truncateMessage error_message).length ≤ 4000
    ∧ (error_message.length ≤ 4000 →
        truncateMessage error_message = error_message)
    ∧ (∀ aid, attempt_id = some aid →
        ∀ a ∈ (mark_job_failed db job_id attempt_id error_code error_message
            exit_code now).attempts,
          a.id = aid → a.status = AttemptStatus.failed ∧
            a.error_message = some (truncateMessage error_message) ∧
            a.exit_code = exit_code)
    ∧ (∀ aid, attempt_id = some aid →
        ∀ a ∈ db.attempts, a.id ≠ aid →
          a ∈ (mark_job_failed db job_id attempt_id error_code error_message
            exit_code now).attempts)
    ∧ (attempt_id = none →
        (mark_job_failed db job_id attempt_id error_code error_message
          exit_code now).attempts = db.attempts) := by
  refine ⟨?_, truncateMessage_length_le error_message,
    truncateMessage_short error_message, ?_, ?_, ?_⟩
  · intro j hj hid
    simp only [mark_job_failed, List.mem_map] at hj
    obtain ⟨j0, _, rfl⟩ := hj
    by_cases h0 : j0.id = job_id
    · simp [h0]
    · rw [if_neg h0] at hid ⊢
      exact absurd hid h0
  · intro aid haid a ha hid
    subst haid
    simp only [mark_job_failed, List.mem_map] at ha
    obtain ⟨a0, _, rfl⟩ := ha
    by_cases h0 : a0.id = aid
    · simp [h0]
    · rw [if_neg h0] at hid ⊢
      exact absurd hid h0
  · intro aid haid a ha hne
    subst haid
    simp only [mark_job_failed, List.mem_map]
    exact ⟨a, ha, by rw [if_neg hne]⟩
  · intro h
    subst h
    rfl

/-- C4 witness: the spec's scenario `markFailed(jobId, attemptId=None,
errorCode="E", errorMessage="boom", exitCode=None)` leaves the attempts
table untouched (theorem applied at the concrete input) while the job row
is updated to `failed` with error code `E` and message `boom`. -/
theorem C4_mark_failed_witness :
    (mark_job_failed exampleTwoQueuedDb 1 none (some "E") "boom" none
        60).attempts = exampleTwoQueuedDb.attempts
    ∧ (mark_job_failed exampleTwoQueuedDb 1 none (some "E") "boom" none 60).jobs =
      [{ exampleQueuedRow 1 1 0 with
          status := .failed
          error_code := some "E"
          error_message := some "boom"
          finished_at := some 60 },
        exampleQueuedRow 2 5 10] :=
  ⟨(C4_mark_failed_semantics exampleTwoQueuedDb 1 none (some "E") "boom" none
      60).2.2.2.2.2 rfl,
    by
      have h4 : truncateMessage "boom" = "boom" :=
        truncateMessage_short "boom" (by decide)
      simp [mark_job_failed, exampleTwoQueuedDb, exampleQueuedRow, h4]⟩

/-! ### The persisted-progress throttle (C6)

The code suppresses an update when `(now - self._last_update_at) <
self._min_interval_sec and current < safe_total`, where `safe_total =
total if total > 0 else 1`.  The claim words the flush condition as
`current >= total`; for `total > 0` the two agree, but for `total <= 0`
the code compares against 1, not against `total`, and the counterexample
below exhibits the difference at `current = 0, total = 0`. -/

/-- C6 counterexample.  A `report_progress(0, 0)` call inside the throttle
window has `current >= total` (`0 >= 0`), so the claim says it always
persists immediately; the code compares `current < safe_total` (`0 < 1`)
and suppresses it.  State: `min_interval_sec = 2`, `last_update_at = 10`,
call at `now = 10` (elapsed `0 < 2`, inside the window). -/
theorem C6_throttle_counterexample :
    ((10 : ℚ) - 10 < 2) ∧ ((0 : Int) ≥ 0) ∧
      report_progress_step ⟨2, 10⟩ 10 0 0 = (false, ⟨2, 10⟩) := by
  refine ⟨?_, le_refl 0, ?_⟩
  · rw [sub_self]
    decide
  · rw [report_progress_step, if_pos]
    constructor
    · rw [sub_self]
      show (0 : ℚ) < 2
      decide
    · show (0 : Int) < safeTotal 0
      decide

/-- C6 (amended).  The persisted-progress sink suppresses a call when less
than the minimum interval has elapsed since its last accepted update and
`current < safe_total`, where `safe_total` is `total` if `total > 0` and
`1` otherwise; whenever `current >= safe_total` — for a positive total,
whenever `current >= total` — the update always persists immediately
regardless of the interval, and a persisting call records its own time as
the new throttle reference.  Consequently two identical
`report_progress(50, 100)` calls, the first accepted and the second inside
the window it opens, persist exactly once, and `report_progress(100, 100)`
always persists. -/
theorem C6_throttle_semantics_amended :
    (∀ (st : DbReporterState) (now : ℚ) (current total : Int),
      now - st.last_update_at < st.min_interval_sec → current < safeTotal total →
      report_progress_step st now current total = (false, st))
    ∧ (∀ (st : DbReporterState) (now : ℚ) (current total : Int),
        safeTotal total ≤ current →
        report_progress_step st now current total =
          (true, { st with last_update_at := now }))
    ∧ (∀ (st : DbReporterState) (now : ℚ) (current total : Int),
        0 < total → total ≤ current →
        (report_progress_step st now current total).1 = true)
    ∧ (∀ (st : DbReporterState) (t1 t2 : ℚ),
        ¬ (t1 - st.last_update_at < st.min_interval_sec) →
        t2 - t1 < st.min_interval_sec →
        countPersisted st [(t1, 50, 100), (t2, 50, 100)] = 1)
    ∧ (∀ (st : DbReporterState) (now : ℚ),
        (report_progress_step st now 100 100).1 = true) := by
  have hsup : ∀ (st : DbReporterState) (now : ℚ) (current total : Int),
      now - st.last_update_at < st.min_interval_sec → current < safeTotal total →
      report_progress_step st now current total = (false, st) := by
    intro st now current total h1 h2
    rw [report_progress_step, if_pos ⟨h1, h2⟩]
  have hflush : ∀ (st : DbReporterState) (now : ℚ) (current total : Int),
      safeTotal total ≤ current →
      report_progress_step st now current total =
        (true, { st with last_update_at := now }) := by
    intro st now current total h
    rw [report_progress_step, if_neg]
    intro hcon
    exact absurd hcon.2 (not_lt.mpr h)
  refine ⟨hsup, hflush, ?_, ?_, ?_⟩
  · intro st now current total hpos hle
    rw [hflush st now current total (by simp [safeTotal, if_pos hpos, hle])]
  · intro st t1 t2 h1 h2
    have hfirst : report_progress_step st t1 50 100 =
        (true, { st with last_update_at := t1 }) := by
      rw [report_progress_step, if_neg]
      intro hcon
      exact h1 hcon.1
    have hsecond : report_progress_step { st with last_update_at := t1 } t2 50 100 =
        (false, { st with last_update_at := t1 }) := by
      refine hsup _ t2 50 100 h2 ?_
      show (50 : Int) < safeTotal 100
      decide
    rw [countPersisted, hfirst]
    rw [countPersisted, hsecond]
    rfl
  · intro st now
    rw [hflush st now 100 100 (by decide)]

/-- C6 witness: with the default 2-second interval and a fresh reporter,
a `report_progress(50, 100)` at `t = 5` followed by an identical call at
`t = 5` (inside the 2-second window the first call opened) persists exactly
once; and a `report_progress(100, 100)` call always reports `true`. -/
theorem C6_throttle_witness :
    countPersisted (initDbReporter 2) [(5, 50, 100), (5, 50, 100)] = 1
    ∧ (report_progress_step (initDbReporter 2) 5 100 100).1 = true :=
  ⟨(C6_throttle_semantics_amended).2.2.2.1 (initDbReporter 2) 5 5
      (by
        show ¬ ((5 : ℚ) - 0 < 2)
        rw [sub_zero]
        decide)
      (by
        rw [sub_self]
        decide),
    (C6_throttle_semantics_amended).2.2.2.2 (initDbReporter 2) 5⟩

/-! ### The composite reporter fan-out (C8)

Both `CompositeProgressReporter.report_phase` and `.report_progress` run
`for reporter in self._reporters: reporter.<method>(...)` with no
`try`/`except`: an exception raised by a sink propagates out of the loop
and the remaining sinks are not invoked. -/

/-- C8 counterexample.  Two sinks, the first raising: the composite call
invokes only one of its two sinks and lets the exception propagate,
contradicting the claim that a failing sink's error is swallowed per-sink
and the remaining sinks are still invoked. -/
theorem C8_fanout_counterexample :
    fanoutCalls [some "boom", none] = (1, some "boom") ∧ (1 : Nat) ≠ 2 :=
  ⟨rfl, by decide⟩

/-- C8 (amended).  A phase/progress call on the composite reporter is
delivered to the sinks in list order only up to and including the first
sink that raises: when every sink returns normally all sinks are invoked in
order and no exception escapes, and when the sinks split as
`pre ++ [raising sink] ++ rest` with every sink of `pre` returning
normally, exactly the sinks of `pre` and the raising sink are invoked
(`pre.length + 1` of them) and the exception propagates out of the
composite call, skipping `rest`. -/
theorem C8_fanout_first_error_propagates :
    (∀ bs : List (Option String), (∀ b ∈ bs, b = none) →
      fanoutCalls bs = (bs.length, none))
    ∧ (∀ (pre rest : List (Option String)) (e : String),
        (∀ b ∈ pre, b = none) →
        fanoutCalls (pre ++ some e :: rest) = (pre.length + 1, some e)) := by
  constructor
  · intro bs
    induction bs with
    | nil => intro _; rfl
    | cons b r ih =>
      intro h
      have hb : b = none := h b (List.mem_cons_self b r)
      subst hb
      simp only [fanoutCalls, ih fun x hx => h x (List.mem_cons_of_mem none hx)]
      simp
  · intro pre
    induction pre with
    | nil => intro rest e _; rfl
    | cons b r ih =>
      intro rest e h
      have hb : b = none := h b (List.mem_cons_self b r)
      subst hb
      have ihr := ih rest e fun x hx => h x (List.mem_cons_of_mem none hx)
      have hstep : fanoutCalls (none :: (r ++ some e :: rest)) =
          ((fanoutCalls (r ++ some e :: rest)).1 + 1,
            (fanoutCalls (r ++ some e :: rest)).2) := rfl
      rw [List.cons_append, hstep, ihr]
      simp

/-- C8 witness: with two well-behaved sinks both are invoked in order and
nothing propagates; with one well-behaved sink before a raising one, both
are invoked and the exception propagates. -/
theorem C8_fanout_witness :
    fanoutCalls [none, none] = (2, none)
    ∧ fanoutCalls [none, some "boom"] = (2, some "boom") :=
  ⟨C8_fanout_first_error_propagates.1 [none, none] (by decide),
    C8_fanout_first_error_propagates.2 [none] [] "boom" (by decide)⟩

/-! ### The pipeline's failure recording and validation placement (C5, C9) -/

lemma countMarkFailed_append (a b : List Ev) :
    countMarkFailed (a ++ b) = countMarkFailed a + countMarkFailed b := by
  simp [countMarkFailed, List.filter_append]

set_option maxHeartbeats 1000000 in
lemma countMarkFailed_convert (c : ConvertEnv) :
    countMarkFailed (convert_execute c).2 = 0 := by
  simp only [convert_execute]
  split_ifs <;> rfl

lemma countMarkFailed_try_body (env : RunEnv) :
    countMarkFailed (run_try_body env).2 = 0 := by
  rcases hc : convert_execute env.convert with ⟨cres, ctr⟩
  have hc0 : countMarkFailed ctr = 0 := by
    have h := countMarkFailed_convert env.convert
    rw [hc] at h
    exact h
  have hcnil : (ctr.filter fun e =>
      match e with | Ev.markFailed _ _ => true | _ => false) = [] :=
    List.eq_nil_of_length_eq_zero hc0
  simp only [run_try_body, hc]
  cases cres with
  | error e =>
    split_ifs <;>
      simp [countMarkFailed, List.filter_cons, List.filter_append, hcnil]
  | ok g =>
    cases g <;>
      split_ifs <;>
        simp [countMarkFailed, List.filter_cons, List.filter_append, hcnil]

/-- C5 (amended).  In `RunSingleJobUseCase.execute`, an exception raised by
any step inside the `try` block — from `start_job_attempt` onward — leads
to exactly one `mark_job_failed` call, with error code
`worker_runtime_error` and the attempt id if an attempt had been started
(`None` otherwise), and the exception is re-raised only after that call
(the failure record is the last side effect of the execution); an execution
in which no step raises makes no `mark_job_failed` call.  However, the two
work-directory `ensure_dir` calls run before the `try` block, so an
exception raised there propagates with no `mark_job_failed` call at all —
which is what the counterexample exhibits against the claim as stated. -/
theorem C5_single_failure_record_amended (env : RunEnv) :
    ((run_execute env).1 = Except.ok () → countMarkFailed (run_execute env).2 = 0)
    ∧ (∀ e, (run_execute env).1 = Except.error e →
        env.ensure_work_input_ok = true → env.ensure_work_output_ok = true →
        countMarkFailed (run_execute env).2 = 1 ∧
        ∃ tr, (run_execute env).2 =
          tr ++ [Ev.markFailed (attemptCtx env) "worker_runtime_error"])
    ∧ ((env.ensure_work_input_ok = false ∨ env.ensure_work_output_ok = false) →
        (∃ e, (run_execute env).1 = Except.error e) ∧
        countMarkFailed (run_execute env).2 = 0) := by
  rcases ht : run_try_body env with ⟨tres, ttr⟩
  have ht0 : countMarkFailed ttr = 0 := by
    have h := countMarkFailed_try_body env
    rw [ht] at h
    exact h
  cases e1 : env.ensure_work_input_ok with
  | false =>
    refine ⟨?_, ?_, ?_⟩
    · intro h
      simp [run_execute, e1] at h
    · intro e _ h1
      exact absurd h1 (by decide)
    · intro _
      exact ⟨⟨Exn.stepFailure "ensure_dir", by simp [run_execute, e1]⟩,
        by simp [run_execute, e1, countMarkFailed]⟩
  | true =>
    cases e2 : env.ensure_work_output_ok with
    | false =>
      refine ⟨?_, ?_, ?_⟩
      · intro h
        simp [run_execute, e1, e2] at h
      · intro e _ _ h2
        exact absurd h2 (by decide)
      · intro _
        exact ⟨⟨Exn.stepFailure "ensure_dir", by simp [run_execute, e1, e2]⟩,
          by simp [run_execute, e1, e2, countMarkFailed]⟩
    | true =>
      have hrun : run_execute env =
          match (tres, ttr) with
          | (.ok _, tr) => (Except.ok (), [Ev.ensureDir, Ev.ensureDir] ++ tr)
          | (.error e, tr) =>
            (Except.error e,
              [Ev.ensureDir, Ev.ensureDir] ++ tr ++
                [Ev.markFailed (attemptCtx env) "worker_runtime_error"]) := by
        simp [run_execute, e1, e2, ht]
      cases tres with
      | ok u =>
        refine ⟨?_, ?_, ?_⟩
        · intro _
          rw [hrun]
          show countMarkFailed ([Ev.ensureDir, Ev.ensureDir] ++ ttr) = 0
          rw [countMarkFailed_append, ht0]
          rfl
        · intro e he
          rw [hrun] at he
          simp at he
        · rintro (h | h) <;> exact absurd h (by decide)
      | error ex =>
        refine ⟨?_, ?_, ?_⟩
        · intro h
          rw [hrun] at h
          simp at h
        · intro e _ _ _
          constructor
          · rw [hrun]
            show countMarkFailed (([Ev.ensureDir, Ev.ensureDir] ++ ttr) ++
              [Ev.markFailed (attemptCtx env) "worker_runtime_error"]) = 1
            rw [countMarkFailed_append, countMarkFailed_append, ht0]
            rfl
          · refine ⟨[Ev.ensureDir, Ev.ensureDir] ++ ttr, ?_⟩
            rw [hrun]
        · rintro (h | h) <;> exact absurd h (by decide)

/-- A conversion environment in which every external call succeeds. -/
def exampleConvertEnvOk : ConvertEnv :=
  { input_exists := true
    fps := 2
    keep_frames := false
    ensure_output_dir_ok := true
    ensure_frames_dir_ok := true
    extract_ok := true
    list_frames_ok := true
    frame_count := 3
    infer_ok := true
    infer_glb_found := true
    remove_dir_ok := true }

/-- A run environment in which every call succeeds (attempt id 7). -/
def exampleRunEnvOk : RunEnv :=
  { ensure_work_input_ok := true
    ensure_work_output_ok := true
    start_attempt_ok := true
    attempt_id := 7
    download_ok := true
    convert := exampleConvertEnvOk
    upload_ok := true
    add_artifact_ok := true
    mark_succeeded_ok := true }

/-- The run environment in which the first work-directory `ensure_dir`
call raises. -/
def exampleRunEnvPrepFails : RunEnv :=
  { exampleRunEnvOk with ensure_work_input_ok := false }

/-- The run environment in which frame extraction raises. -/
def exampleRunEnvExtractFails : RunEnv :=
  { exampleRunEnvOk with convert := { exampleConvertEnvOk with extract_ok := false } }

/-- C5 counterexample.  When the work-directory `ensure_dir` call (a step
of `RunSingleJobUseCase.execute`, executed before the `try` block) raises,
the execution raises to the caller but makes zero `mark_job_failed` calls —
against the claim that any step raising leads to exactly one such call. -/
theorem C5_prep_failure_counterexample :
    (run_execute exampleRunEnvPrepFails).1 =
      Except.error (Exn.stepFailure "ensure_dir")
    ∧ countMarkFailed (run_execute exampleRunEnvPrepFails).2 = 0 :=
  ⟨rfl, rfl⟩

/-- C5 witness: when frame extraction raises inside the `try` block, the
execution records exactly one `mark_job_failed` with the started attempt's
id, as its last side effect. -/
theorem C5_single_failure_record_witness :
    countMarkFailed (run_execute exampleRunEnvExtractFails).2 = 1
    ∧ ∃ tr, (run_execute exampleRunEnvExtractFails).2 =
        tr ++ [Ev.markFailed (attemptCtx exampleRunEnvExtractFails)
          "worker_runtime_error"] :=
  (C5_single_failure_record_amended exampleRunEnvExtractFails).2.1
    (Exn.stepFailure "extract_frames") rfl rfl rfl

/-- Validation failing fast inside `ConvertVideoToGlbUseCase.execute`:
a missing input raises `FileNotFoundError` and a non-positive fps raises
`ValueError`, in both cases before any phase report, filesystem call,
extraction or inference — the conversion use case's trace is empty. -/
lemma convert_validation_fails_fast :
    (∀ c : ConvertEnv, c.input_exists = false →
      convert_execute c = (Except.error Exn.fileNotFound, []))
    ∧ (∀ c : ConvertEnv, c.input_exists = true → c.fps ≤ 0 →
      convert_execute c = (Except.error Exn.valueError, [])) := by
  constructor
  · intro c h
    simp [convert_execute, h]
  · intro c h1 h2
    simp [convert_execute, h1, h2]

/-- The run environment with a valid (existing) downloaded input but a
non-positive requested frame rate (`fps = -1` in the job's params). -/
def exampleRunEnvBadFps : RunEnv :=
  { exampleRunEnvOk with convert := { exampleConvertEnvOk with fps := -1 } }

/-- C9 counterexample.  A job whose params carry `fps = -1`: validation
does raise `ValueError`, but only inside the conversion use case — by then
`RunSingleJobUseCase.execute` has already started the attempt (a durable
side effect) and invoked the object-storage download (an external
capability), and the resulting `mark_job_failed` call carries the attempt
id, so the attempt row is updated too.  This contradicts the claim that a
frame-rate validation failure happens "before any side effect and before
any external capability (storage, ...) is invoked" and produces "no
attempt side effects beyond the single markFailed job update". -/
theorem C9_validation_counterexample :
    (run_execute exampleRunEnvBadFps).1 = Except.error Exn.valueError
    ∧ Ev.startAttempt 7 ∈ (run_execute exampleRunEnvBadFps).2
    ∧ Ev.downloadFile ∈ (run_execute exampleRunEnvBadFps).2
    ∧ (run_execute exampleRunEnvBadFps).2.getLast? =
        some (Ev.markFailed (some 7) "worker_runtime_error") :=
  ⟨rfl, by decide, by decide, rfl⟩

/-- C9 (amended).  Validation fails fast relative to the conversion use
case: a missing input path raises `FileNotFoundError` and a non-positive
frame rate raises `ValueError` before any side effect or external
capability call of `ConvertVideoToGlbUseCase.execute` (its trace is empty).
In the job pipeline, however, the attempt start and the storage download
precede the conversion, so a frame-rate validation failure yields exactly
the trace: work-directory preparation, attempt start, download phase and
download, then the single `mark_job_failed` — which, because an attempt
was started, updates the attempt row as well as the job row. -/
theorem C9_validation_scope_amended :
    (∀ c : ConvertEnv, c.input_exists = false →
      convert_execute c = (Except.error Exn.fileNotFound, []))
    ∧ (∀ c : ConvertEnv, c.input_exists = true → c.fps ≤ 0 →
      convert_execute c = (Except.error Exn.valueError, []))
    ∧ (∀ env : RunEnv, env.ensure_work_input_ok = true →
        env.ensure_work_output_ok = true → env.start_attempt_ok = true →
        env.download_ok = true → env.convert.input_exists = true →
        env.convert.fps ≤ 0 →
        run_execute env = (Except.error Exn.valueError,
          [Ev.ensureDir, Ev.ensureDir, Ev.startAttempt env.attempt_id,
            Ev.reportPhase "download", Ev.downloadFile,
            Ev.markFailed (some env.attempt_id) "worker_runtime_error"])) := by
  refine ⟨convert_validation_fails_fast.1, convert_validation_fails_fast.2, ?_⟩
  intro env h1 h2 h3 h4 h5 h6
  have hc : convert_execute env.convert = (Except.error Exn.valueError, []) :=
    convert_validation_fails_fast.2 env.convert h5 h6
  have hattempt : attemptCtx env = some env.attempt_id := by
    simp [attemptCtx, h3]
  simp [run_execute, run_try_body, h1, h2, h3, h4, hc, hattempt]

/-- C9 witness: a conversion request whose input file exists but whose
`fps` is `-1` fails validation with `ValueError` before the conversion use
case performs any side effect (empty trace). -/
theorem C9_validation_scope_witness :
    convert_execute { exampleConvertEnvOk with fps := -1 } =
      (Except.error Exn.valueError, []) :=
  C9_validation_scope_amended.2.1 { exampleConvertEnvOk with fps := -1 } rfl
    (by decide)

end DA3
